import Mathlib

/-!
Shallow embedding of the segment sampling and best-match aggregation engine of
the Tune-Spotter backend (`src/backend/server.py`), together with theorems
settling the specification claims about it.

Conventions of the embedding:
* Python byte strings are modelled as `List Nat`.
* Python `dict` results with optional keys are modelled as structures with
  `Option` fields (`none` = key absent).
* The two external collaborators (media download, recognition API) are
  modelled as explicit oracle inputs, so every function is pure and total;
  a Python exception raised by a collaborator is an explicit constructor of
  the oracle's result type.
* Confidences are compared, never arithmetically combined, so `ℚ` models the
  Python floats faithfully on the values that occur (0, 0.5, 0.85).
-/

namespace TuneSpotter

/-! ## Time specification parsing (server.py lines 189-196)

`start_time.split(':')` followed by `int(...)` on each field.  Python's
`str.split` on a one-character separator and `int` applied to a string are
modelled character-exactly below (`int` accepts surrounding ASCII whitespace,
an optional sign, and digits with single underscores between digit groups;
anything else raises `ValueError`, modelled as `none`). -/

/-- Characters stripped by Python `int(str)`: ASCII whitespace. -/
def isPyWs (c : Char) : Bool :=
  c = ' ' || c = '\t' || c = '\n' || c = '\r' || c = '\x0b' || c = '\x0c'

/-- Value of a decimal digit character, `none` on a non-digit. -/
def digitVal (c : Char) : Option Nat :=
  if c.isDigit then some (c.toNat - '0'.toNat) else none

/-- Digits of a Python integer literal after its first digit: further digits,
with single underscores allowed between digits only. -/
def pyDigitsAux : List Char → Nat → Option Nat
  | [], acc => some acc
  | c :: rest, acc =>
    if c = '_' then
      match rest with
      | [] => none
      | c2 :: rest2 =>
        match digitVal c2 with
        | some d => pyDigitsAux rest2 (acc * 10 + d)
        | none => none
    else
      match digitVal c with
      | some d => pyDigitsAux rest (acc * 10 + d)
      | none => none

/-- Unsigned digit run of a Python integer literal: must begin with a digit. -/
def pyDigits (l : List Char) : Option Nat :=
  match l with
  | [] => none
  | c :: rest =>
    match digitVal c with
    | some d => pyDigitsAux rest d
    | none => none

/-- Python `int(s)` on a string: strip whitespace on both ends, optional
sign, then digits (with underscores between digits); `none` models
`ValueError`. -/
def pyInt (l : List Char) : Option Int :=
  let t := ((l.dropWhile isPyWs).reverse.dropWhile isPyWs).reverse
  match t with
  | [] => none
  | c :: rest =>
    if c = '+' then (pyDigits rest).map (fun n => (n : Int))
    else if c = '-' then (pyDigits rest).map (fun n => -(n : Int))
    else (pyDigits (c :: rest)).map (fun n => (n : Int))

/-- Python `s.split(':')`: split on every colon, keeping empty fields. -/
def splitOnColon : List Char → List (List Char)
  | [] => [[]]
  | c :: rest =>
    if c = ':' then [] :: splitOnColon rest
    else
      match splitOnColon rest with
      | [] => [[c]]
      | f :: fs => (c :: f) :: fs

/-- The start-time parsing of `extract_audio_from_url` (lines 190-196):
2 fields are `MM:SS`, 3 fields are `HH:MM:SS`, any other field count
defaults to `0`; a field rejected by `int` raises (propagated as `none`). -/
def parse_start_time (start_time : String) : Option Int :=
  match splitOnColon start_time.data with
  | [m, s] => do
    let mv ← pyInt m
    let sv ← pyInt s
    pure (mv * 60 + sv)
  | [h, m, s] => do
    let hv ← pyInt h
    let mv ← pyInt m
    let sv ← pyInt s
    pure (hv * 3600 + mv * 60 + sv)
  | _ => some 0

/-- Decimal value of a list of digit characters (most significant first). -/
def fieldVal (l : List Char) : Nat :=
  l.foldl (fun a c => a * 10 + (c.toNat - '0'.toNat)) 0

/-- Python `enumerate(xs)` starting at counter `n`: each element paired with
its position. -/
def enumerate (n : Nat) : List α → List (Nat × α)
  | [] => []
  | x :: rest => (n, x) :: enumerate (n + 1) rest

/-! ## Sampling strategy selection (server.py lines 139-236 and 352-357)

The broad-sampling start points are computed in Python as `duration * 0.25`,
`duration * 0.5`, `duration * 0.75` on floats and then truncated with
`int(start_sec)`.  For every realistic duration (below `2^51` seconds) those
float products are exact, so truncation equals rounded-down natural division,
which is how they are modelled here. -/

/-- One time window chosen for sampling, in selection order (`index`). -/
structure SampleWindow where
  index : Nat
  start_seconds : Int
  window_length_seconds : Nat
  deriving DecidableEq, Repr

/-- The broad-sampling start offsets (lines 142-146 and 353-357). -/
def sample_points (duration : Nat) : List Nat :=
  if duration > 600 then [0, duration / 4, duration / 2, 3 * duration / 4]
  else [0, duration / 2]

/-- Windows of the broad-sampling branch: one 30-second extraction
(`-t 30`) per sample point, indexed by `enumerate` order. -/
def broad_windows (duration : Nat) : List SampleWindow :=
  (enumerate 0 (sample_points duration)).map (fun p => ⟨p.1, (p.2 : Int), 30⟩)

/-- The windows `extract_audio_from_url` extracts, by its branch structure
(lines 140, 186, 218): broad sampling first when `sample_multiple` is set and
the duration exceeds 180 s; else a single 30-second window at the parsed
`start_time` when one is given (a non-empty string, by Python truthiness);
else the default single 30-second window at 0.  A `start_time` whose fields
`int` rejects raises, modelled as `none`. -/
def select_windows (duration : Nat) (start_time : Option String)
    (sample_multiple : Bool) : Option (List SampleWindow) :=
  if sample_multiple = true ∧ duration > 180 then some (broad_windows duration)
  else
    match start_time with
    | some t =>
      if t = "" then some [⟨0, 0, 30⟩]
      else
        match parse_start_time t with
        | some s => some [⟨0, s, 30⟩]
        | none => none
    | none => some [⟨0, 0, 30⟩]

/-- The extraction length that physically results from `-t 30` when the
media ends `duration - start` seconds after the window start. -/
def effective_length (duration : Nat) (w : SampleWindow) : Int :=
  min (w.window_length_seconds : Int) ((duration : Int) - w.start_seconds)

/-- A URL-recognition request as a client may send it.  The endpoint
(lines 325-330) declares only `url`, `start_time` and `sample_multiple` as
form fields; an `end_time` form field sent by the client is not declared and
is dropped by the HTTP layer before this core runs. -/
structure UrlRequest where
  url : String
  start_time : Option String := none
  end_time : Option String := none
  sample_multiple : Bool := false
  deriving DecidableEq, Repr

/-- The windows the server selects for a request: only `start_time` and
`sample_multiple` reach the selector; `end_time` is ignored. -/
def request_windows (duration : Nat) (req : UrlRequest) :
    Option (List SampleWindow) :=
  select_windows duration req.start_time req.sample_multiple

/-! ## Recognition dispatch (server.py lines 61-107)

`recognize_with_audd` is modelled over an oracle describing everything the
external world can do: the HTTP POST can raise (`exn`, caught by the
function's `except Exception` clause) or return a response with a status
code and a JSON body holding a `status` string and an optional `result`
object (absent, `null` and falsy bodies all modelled as `none`). -/

/-- The optional metadata fields of an AudD `result` object. -/
structure SongData where
  title : Option String := none
  artist : Option String := none
  album : Option String := none
  release_date : Option String := none
  deriving DecidableEq, Repr

/-- What the recognition service call can do. -/
inductive ApiOutcome where
  | exn (msg : String)
  | resp (status_code : Nat) (body_status : String) (body_result : Option SongData)
  deriving DecidableEq, Repr

/-- A recognition result dictionary; `none` fields model absent keys. -/
structure RecogResult where
  status : String
  title : Option String := none
  artist : Option String := none
  album : Option String := none
  release_date : Option String := none
  confidence : Option ℚ := none
  message : Option String := none
  segment_number : Option Nat := none
  segment_start : Option Nat := none
  all_segments_tried : Option Nat := none
  successful_segments : Option Nat := none
  deriving DecidableEq, Repr

/-- `recognize_with_audd` (lines 61-107): a missing token (empty string is
falsy) is a configuration error; otherwise the oracle's outcome is mapped to
success (with the fixed estimated confidence 0.85), not-found, or error. -/
def recognize_with_audd (token : String) (api : ApiOutcome) : RecogResult :=
  if token = "" then
    { status := "error"
      message := some "AudD API token not configured. Please add AUDD_API_TOKEN to your .env file." }
  else
    match api with
    | .exn msg => { status := "error", message := some ("Recognition failed: " ++ msg) }
    | .resp code body_status body_result =>
      if code = 200 then
        if body_status = "success" then
          match body_result with
          | some song =>
            { status := "success"
              title := some (song.title.getD "Unknown")
              artist := some (song.artist.getD "Unknown")
              album := some (song.album.getD "Unknown")
              release_date := some (song.release_date.getD "Unknown")
              confidence := some (85 / 100 : ℚ) }
          | none => { status := "not_found", message := some "No match found for this audio" }
        else { status := "not_found", message := some "No match found for this audio" }
      else
        { status := "error"
          message := some ("API request failed with status " ++ toString code) }

/-! ## Segment extraction (server.py lines 148-184 and 238-245)

The broad-sampling extraction loop runs over `enumerate(sample_points)`; the
media download for a point can fail (network error, no matching output
file), which the `except` clause downgrades to a log line and `continue`.
The downloads are modelled as an oracle list `fetch` aligned with the sample
points: `none` means the download of that window produced no audio. -/

/-- One extracted audio payload, as appended at lines 171-175. -/
structure AudioSegment where
  data : List Nat
  start_time : Nat
  filename : String
  deriving DecidableEq, Repr

/-- The filename given to segment `i` (line 174). -/
def seg_filename (i : Nat) (title : String) : String :=
  "segment_" ++ toString i ++ "_" ++ title ++ ".mp3"

/-- The extraction loop (lines 148-184): each sample point paired with its
download result, in order; a failed window is skipped and the loop
continues, the `enumerate` counter still advancing. -/
def extract_segments (title : String) : Nat → List (Nat × Option (List Nat)) → List AudioSegment
  | _, [] => []
  | i, (start, some d) :: rest =>
    ⟨d, start, seg_filename i title⟩ :: extract_segments title (i + 1) rest
  | i, (_, none) :: rest => extract_segments title (i + 1) rest

/-- The `segments_processed` metadata entries (lines 176-180): one
`(segment, start_time, duration)` triple per successful window. -/
def segments_processed_of : Nat → List (Nat × Option (List Nat)) → List (Nat × Nat × Nat)
  | _, [] => []
  | i, (start, some _) :: rest => (i, start, 30) :: segments_processed_of (i + 1) rest
  | i, (_, none) :: rest => segments_processed_of (i + 1) rest

/-- The metadata dictionary built at lines 133-137 and filled during
extraction. -/
structure Metadata where
  title : String
  duration : Nat
  segments_processed : List (Nat × Nat × Nat)
  deriving DecidableEq, Repr

/-- `extract_audio_from_url` in its broad-sampling branch (lines 140-184,
238-245): run the extraction loop; if no segment at all was obtained, the
`raise Exception("No audio file found after download")` at line 242 fires
(modelled as `.error`); otherwise return the first segment's bytes and
filename together with the metadata. -/
def extract_audio_multi (title : String) (duration : Nat)
    (fetch : List (Option (List Nat))) :
    Except String (List Nat × String × Metadata) :=
  let downloads := (sample_points duration).zip fetch
  let segs := extract_segments title 0 downloads
  let meta : Metadata := ⟨title, duration, segments_processed_of 0 downloads⟩
  match segs with
  | [] => .error "No audio file found after download"
  | s :: _ => .ok (s.data, s.filename, meta)

/-! ## Best-match aggregation (server.py lines 247-283)

`recognize_multiple_segments` walks the extracted segments in list order,
recognizing each through `recognize_with_audd`; the recognizer is abstracted
as an oracle `recog : bytes → filename → RecogResult` (its totality is
proved separately from the dispatcher model).  Successful outcomes are
annotated with their segment index and start, collected, and the best kept
under strict `confidence > best_confidence` comparison starting from 0. -/

/-- A recognition verdict carrying the aggregation metadata, as returned by
`recognize_multiple_segments` (the `metadata` key of lines 274 and 282). -/
structure SegmentedResult where
  result : RecogResult
  metadata : Metadata
  deriving DecidableEq, Repr

/-- The confidence the loop reads at line 258: the outcome's `confidence`
with Python default `0.5` when absent. -/
def eff_conf (r : RecogResult) : ℚ :=
  r.confidence.getD (1 / 2)

/-- The `segment_info` annotation of lines 259-262. -/
def annotate (i : Nat) (seg : AudioSegment) (r : RecogResult) : RecogResult :=
  { r with segment_number := some i, segment_start := some seg.start_time }

/-- The recognizer's outcome for one enumerated segment (line 255). -/
def seg_outcome (recog : List Nat → String → RecogResult)
    (p : Nat × AudioSegment) : RecogResult :=
  recog p.2.data p.2.filename

/-- How many segments of a batch the recognizer identifies (the length of
`all_results` at line 276). -/
def success_count (recog : List Nat → String → RecogResult)
    (segs : List AudioSegment) : Nat :=
  segs.countP (fun s => (recog s.data s.filename).status == "success")

/-- The loop state of lines 249-251. -/
structure AggState where
  best : Option RecogResult
  best_confidence : ℚ
  all_results : List RecogResult
  deriving DecidableEq, Repr

/-- Initial loop state (lines 249-251). -/
def agg_init : AggState := ⟨none, 0, []⟩

/-- One iteration of the loop of lines 253-271, on the `enumerate`d segment
`p`. -/
def agg_step (recog : List Nat → String → RecogResult)
    (p : Nat × AudioSegment) (st : AggState) : AggState :=
  let result := recog p.2.data p.2.filename
  if result.status = "success" then
    let confidence := eff_conf result
    let result := annotate p.1 p.2 result
    if st.best_confidence < confidence then
      ⟨some result, confidence, st.all_results ++ [result]⟩
    else
      ⟨st.best, st.best_confidence, st.all_results ++ [result]⟩
  else st

/-- The whole loop of lines 253-271. -/
def agg_loop (recog : List Nat → String → RecogResult) :
    List (Nat × AudioSegment) → AggState → AggState
  | [], st => st
  | p :: rest, st => agg_loop recog rest (agg_step recog p st)

/-- `recognize_multiple_segments` (lines 247-283): run the loop over the
enumerated segments; a best result is returned enriched with the metadata
and the tried/succeeded counters (lines 273-277); otherwise the not-found
dictionary of lines 279-283, which carries only a message naming the number
of segments analyzed. -/
def recognize_multiple_segments (audio_segments : List AudioSegment)
    (recog : List Nat → String → RecogResult) (metadata : Metadata) :
    SegmentedResult :=
  let st := agg_loop recog (enumerate 0 audio_segments) agg_init
  match st.best with
  | some best =>
    ⟨{ best with
        all_segments_tried := some audio_segments.length
        successful_segments := some st.all_results.length }, metadata⟩
  | none =>
    ⟨{ status := "not_found"
       message := some ("No matches found in " ++ toString audio_segments.length
         ++ " segments analyzed") }, metadata⟩

/-! ## The URL route in its broad-sampling branch (server.py lines 325-422)

`recognize_from_url` first calls `extract_audio_from_url` (whose failure is
an HTTPException that propagates, modelled as `.error`), then — in the
branch where `sample_multiple` is set and the probed duration exceeds
180 s — re-runs the segment extraction (lines 342-388, same loop as the
extractor, fed here by the same download oracle) and aggregates; with no
re-extracted segment it falls back to a single recognition of the
first-pass audio (line 395).  An error-status result becomes an
HTTPException(500) at line 417.  The second component counts how many times
the recognition collaborator is invoked.  (The cosmetic success-message
rewriting of lines 404-408 only reformats the response body of successful
verdicts and is not modelled; no claim depends on it.) -/

/-- The broad-sampling path of `recognize_from_url`, returning the route's
outcome and the number of recognition calls made. -/
def recognize_from_url_multi (title : String) (duration : Nat)
    (fetch : List (Option (List Nat)))
    (recog : List Nat → String → RecogResult) :
    Except String RecogResult × Nat :=
  match extract_audio_multi title duration fetch with
  | .error e => (.error ("Failed to extract audio from URL: " ++ e), 0)
  | .ok (audio_data, filename, metadata) =>
    let audio_segments := extract_segments title 0 ((sample_points duration).zip fetch)
    let pr :=
      if audio_segments.isEmpty then (recog audio_data filename, 1)
      else ((recognize_multiple_segments audio_segments recog metadata).result,
        audio_segments.length)
    if pr.1.status = "success" ∨ pr.1.status = "not_found" then (.ok pr.1, pr.2)
    else (.error (pr.1.message.getD ""), pr.2)

/-! ## Range validation (spec section 4.1) -/

/-- Modelled from the spec: the repository's `validate_range` contract of
section 4.1 has no corresponding code under `src/` (`src/backend/server.py`
accepts no end time and performs no range validation), so it is modelled
from the spec's words: fail with `InvalidRange` when `end` is present and
`end ≤ start`, or when `start ≥ total_duration`. -/
def validate_range (start : Int) (end_seconds : Option Int)
    (total_duration : Int) : Except String Unit :=
  if (match end_seconds with | some e => decide (e ≤ start) | none => false) = true then
    .error "InvalidRange"
  else if start ≥ total_duration then .error "InvalidRange"
  else .ok ()

/-! ## Lemmas about the time parser -/

theorem isPyWs_eq_false_of_isDigit (c : Char) (h : c.isDigit = true) :
    isPyWs c = false := by
  unfold isPyWs
  simp only [Bool.or_eq_false_iff, decide_eq_false_iff_not]
  refine ⟨⟨⟨⟨⟨?_, ?_⟩, ?_⟩, ?_⟩, ?_⟩, ?_⟩ <;> (rintro rfl; revert h; decide)

theorem strip_ws_of_digits (l : List Char) (h : ∀ c ∈ l, c.isDigit = true) :
    ((l.dropWhile isPyWs).reverse.dropWhile isPyWs).reverse = l := by
  have h1 : l.dropWhile isPyWs = l := by
    cases l with
    | nil => rfl
    | cons c rest =>
      simp [List.dropWhile, isPyWs_eq_false_of_isDigit c (h c (by simp))]
  rw [h1]
  have h2 : l.reverse.dropWhile isPyWs = l.reverse := by
    cases hr : l.reverse with
    | nil => rfl
    | cons c rest =>
      have hc : c ∈ l := by
        rw [← List.mem_reverse, hr]; simp
      simp [List.dropWhile, isPyWs_eq_false_of_isDigit c (h c hc)]
  rw [h2, List.reverse_reverse]

theorem pyDigitsAux_digits :
    ∀ (l : List Char) (acc : Nat), (∀ c ∈ l, c.isDigit = true) →
      pyDigitsAux l acc =
        some (l.foldl (fun a c => a * 10 + (c.toNat - '0'.toNat)) acc) := by
  intro l
  induction l with
  | nil => intro acc _; rfl
  | cons c rest ih =>
    intro acc h
    have hc : c.isDigit = true := h c (by simp)
    have hne : ¬(c = '_') := by rintro rfl; revert hc; decide
    have hd : digitVal c = some (c.toNat - '0'.toNat) := by simp [digitVal, hc]
    unfold pyDigitsAux
    rw [if_neg hne, hd]
    simp only [List.foldl_cons]
    exact ih _ (fun x hx => h x (by simp [hx]))

theorem pyDigits_digits (l : List Char) (hne : l ≠ []) (h : ∀ c ∈ l, c.isDigit = true) :
    pyDigits l = some (fieldVal l : Nat) := by
  cases l with
  | nil => exact absurd rfl hne
  | cons c rest =>
    have hc : c.isDigit = true := h c (by simp)
    have hd : digitVal c = some (c.toNat - '0'.toNat) := by simp [digitVal, hc]
    simp only [pyDigits, hd]
    rw [pyDigitsAux_digits rest _ (fun x hx => h x (by simp [hx]))]
    simp [fieldVal]

theorem pyInt_digits (l : List Char) (hne : l ≠ []) (h : ∀ c ∈ l, c.isDigit = true) :
    pyInt l = some (fieldVal l : Nat) := by
  unfold pyInt
  rw [strip_ws_of_digits l h]
  cases l with
  | nil => exact absurd rfl hne
  | cons c rest =>
    have hc : c.isDigit = true := h c (by simp)
    have hplus : ¬(c = '+') := by rintro rfl; revert hc; decide
    have hminus : ¬(c = '-') := by rintro rfl; revert hc; decide
    simp only [hplus, hminus, if_false, if_neg, not_false_iff]
    rw [pyDigits_digits (c :: rest) hne h]
    rfl

/-- C3: for every time string of 2 or 3 colon-separated non-negative integer
fields, the parser returns `MM*60+SS` respectively `HH*3600+MM*60+SS`, with
fields above 59 rolling up arithmetically rather than being rejected. -/
theorem parse_start_time_fields (s : String) (a b c : List Char)
    (hdig : ∀ f ∈ splitOnColon s.data, f ≠ [] ∧ ∀ ch ∈ f, ch.isDigit = true) :
    (splitOnColon s.data = [a, b] →
      parse_start_time s = some ((fieldVal a : Int) * 60 + (fieldVal b : Int))) ∧
    (splitOnColon s.data = [a, b, c] →
      parse_start_time s =
        some ((fieldVal a : Int) * 3600 + (fieldVal b : Int) * 60 + (fieldVal c : Int))) := by
  constructor
  · intro heq
    obtain ⟨ha1, ha2⟩ := hdig a (by rw [heq]; simp)
    obtain ⟨hb1, hb2⟩ := hdig b (by rw [heq]; simp)
    unfold parse_start_time
    rw [heq]
    simp [pyInt_digits a ha1 ha2, pyInt_digits b hb1 hb2]
  · intro heq
    obtain ⟨ha1, ha2⟩ := hdig a (by rw [heq]; simp)
    obtain ⟨hb1, hb2⟩ := hdig b (by rw [heq]; simp)
    obtain ⟨hc1, hc2⟩ := hdig c (by rw [heq]; simp)
    unfold parse_start_time
    rw [heq]
    simp [pyInt_digits a ha1 ha2, pyInt_digits b hb1 hb2, pyInt_digits c hc1 hc2]

/-- Witness for C3: `"90:90"` rolls up to 5490 and `"01:02:03"` to 3723. -/
theorem parse_start_time_fields_witness :
    parse_start_time "90:90" = some 5490 ∧ parse_start_time "01:02:03" = some 3723 := by
  constructor
  · have h := (parse_start_time_fields "90:90" ['9', '0'] ['9', '0'] []
      (by decide)).1 (by decide)
    rw [h]; decide
  · have h := (parse_start_time_fields "01:02:03" ['0', '1'] ['0', '2'] ['0', '3']
      (by decide)).2 (by decide)
    rw [h]; decide

/-- C4 counterexample: the one-field string `"90"` is not composed of 2 or 3
colon-separated fields, yet the parser succeeds with the default value 0
instead of failing. -/
theorem parse_start_time_default_counterexample :
    (splitOnColon "90".data).length = 1 ∧
    parse_start_time "90" = some 0 ∧ parse_start_time "90" ≠ none := by decide

/-- C4 as amended: the parser fails exactly on strings of 2 or 3
colon-separated fields where some field is rejected by integer conversion;
any other field count succeeds with the default value 0. -/
theorem parse_start_time_failure_iff (s : String) :
    ((splitOnColon s.data).length ≠ 2 ∧ (splitOnColon s.data).length ≠ 3 →
      parse_start_time s = some 0) ∧
    (parse_start_time s = none ↔
      ((splitOnColon s.data).length = 2 ∨ (splitOnColon s.data).length = 3) ∧
        ∃ f ∈ splitOnColon s.data, pyInt f = none) := by
  unfold parse_start_time
  cases hsp : splitOnColon s.data with
  | nil => simp
  | cons a t1 =>
    cases t1 with
    | nil => simp
    | cons b t2 =>
      cases t2 with
      | nil =>
        refine ⟨by simp, ?_⟩
        cases ha : pyInt a with
        | none => simp [ha]
        | some av =>
          cases hb : pyInt b with
          | none => simp [ha, hb]
          | some bv => simp [ha, hb]
      | cons c t3 =>
        cases t3 with
        | nil =>
          refine ⟨by simp, ?_⟩
          cases ha : pyInt a with
          | none => simp [ha]
          | some av =>
            cases hb : pyInt b with
            | none => simp [ha, hb]
            | some bv =>
              cases hc : pyInt c with
              | none => simp [ha, hb, hc]
              | some cv => simp [ha, hb, hc]
        | cons d t4 => simp

/-- Witness for C4: `"1:x"` (2 fields, bad field) fails, `"90"` (1 field)
defaults to 0. -/
theorem parse_start_time_failure_iff_witness :
    parse_start_time "1:x" = none ∧ parse_start_time "90" = some 0 := by
  constructor
  · exact (parse_start_time_failure_iff "1:x").2.mpr
      ⟨Or.inl (by decide), ['x'], by decide, by decide⟩
  · exact (parse_start_time_failure_iff "90").1 (by decide)

/-- C5: `validate_range` (modelled from the spec) fails with `InvalidRange`
exactly when `end` is present and `end ≤ start`, or `start ≥ total`. -/
theorem validate_range_fails_iff (start : Int) (e : Option Int) (total : Int) :
    validate_range start e total = .error "InvalidRange" ↔
      ((∃ x, e = some x ∧ x ≤ start) ∨ total ≤ start) := by
  unfold validate_range
  cases e with
  | none =>
    by_cases h : start ≥ total
    · simp [h]
    · simp [h]
  | some x =>
    by_cases h1 : x ≤ start
    · simp [h1]
    · by_cases h2 : start ≥ total
      · simp [h1, h2]
      · simp [h1, h2]

/-- Witness for C5: the two failing examples of the spec. -/
theorem validate_range_fails_iff_witness :
    validate_range 90 (some 60) 200 = .error "InvalidRange" ∧
    validate_range 250 none 200 = .error "InvalidRange" :=
  ⟨(validate_range_fails_iff 90 (some 60) 200).mpr (Or.inl ⟨60, rfl, by decide⟩),
   (validate_range_fails_iff 250 none 200).mpr (Or.inr (by decide))⟩

/-- C10: the recognition dispatcher is total over failures — on every input
its status is one of success, not_found, error, and every success carries
the fixed nominal confidence 0.85. -/
theorem recognize_with_audd_total (token : String) (api : ApiOutcome) :
    ((recognize_with_audd token api).status = "success" ∨
      (recognize_with_audd token api).status = "not_found" ∨
      (recognize_with_audd token api).status = "error") ∧
    ((recognize_with_audd token api).status = "success" →
      (recognize_with_audd token api).confidence = some (85 / 100 : ℚ)) := by
  by_cases ht : token = ""
  · simp [recognize_with_audd, ht]
  · cases api with
    | exn msg => simp [recognize_with_audd, ht]
    | resp code bstatus bres =>
      by_cases hc : code = 200
      · by_cases hs : bstatus = "success"
        · cases bres with
          | some song => simp [recognize_with_audd, ht, hc, hs]
          | none => simp [recognize_with_audd, ht, hc, hs]
        · simp [recognize_with_audd, ht, hc, hs]
      · simp [recognize_with_audd, ht, hc]

/-- Witness for C10: a transport exception yields one of the three designed
statuses, and a positive identification carries confidence 0.85. -/
theorem recognize_with_audd_total_witness :
    ((recognize_with_audd "tok" (ApiOutcome.exn "boom")).status = "success" ∨
      (recognize_with_audd "tok" (ApiOutcome.exn "boom")).status = "not_found" ∨
      (recognize_with_audd "tok" (ApiOutcome.exn "boom")).status = "error") ∧
    (recognize_with_audd "tok"
      (ApiOutcome.resp 200 "success" (some {}))).confidence = some (85 / 100 : ℚ) :=
  ⟨(recognize_with_audd_total "tok" (ApiOutcome.exn "boom")).1,
   (recognize_with_audd_total "tok" (ApiOutcome.resp 200 "success" (some {}))).2 (by decide)⟩

/-- Helper: with broad sampling requested and more than 180 seconds of
media, the selector takes the broad-sampling branch. -/
theorem select_windows_broad (d : Nat) (hd : 180 < d) :
    select_windows d none true = some (broad_windows d) := by
  unfold select_windows
  rw [if_pos ⟨rfl, hd⟩]

/-- C2: for duration over 180 with broad sampling and no explicit start, the
selector yields 30-second windows at the truncated fractions {0, 1/2} of the
duration (2 windows) when it is at most 600, and {0, 1/4, 1/2, 3/4}
(4 windows) beyond 600; no window reaches past the end of the media. -/
theorem broad_sampling_windows (d : Nat) (hd : 180 < d) :
    (d ≤ 600 → select_windows d none true =
      some [⟨0, 0, 30⟩, ⟨1, ((d / 2 : Nat) : Int), 30⟩]) ∧
    (600 < d → select_windows d none true =
      some [⟨0, 0, 30⟩, ⟨1, ((d / 4 : Nat) : Int), 30⟩,
        ⟨2, ((d / 2 : Nat) : Int), 30⟩, ⟨3, ((3 * d / 4 : Nat) : Int), 30⟩]) ∧
    (∀ ws, select_windows d none true = some ws → ∀ w ∈ ws,
      w.window_length_seconds = 30 ∧ effective_length d w = 30) := by
  have hb := select_windows_broad d hd
  refine ⟨?_, ?_, ?_⟩
  · intro h600
    rw [hb]
    unfold broad_windows sample_points
    rw [if_neg (by omega)]
    simp [enumerate]
  · intro h600
    rw [hb]
    unfold broad_windows sample_points
    rw [if_pos h600]
    simp [enumerate]
  · intro ws hws w hw
    rw [hb, Option.some_inj] at hws
    subst hws
    unfold broad_windows sample_points at hw
    by_cases h600 : d > 600
    · rw [if_pos h600] at hw
      simp only [enumerate, List.map_cons, List.map_nil, List.mem_cons,
        List.not_mem_nil, or_false] at hw
      rcases hw with rfl | rfl | rfl | rfl <;>
        (refine ⟨rfl, ?_⟩; simp only [effective_length, min_def]; split <;> [rfl; omega])
    · rw [if_neg h600] at hw
      simp only [enumerate, List.map_cons, List.map_nil, List.mem_cons,
        List.not_mem_nil, or_false] at hw
      rcases hw with rfl | rfl <;>
        (refine ⟨rfl, ?_⟩; simp only [effective_length, min_def]; split <;> [rfl; omega])

/-- Witness for C2: duration 500 yields exactly the two windows at 0 and
250, each 30 seconds and fully inside the media. -/
theorem broad_sampling_windows_witness :
    select_windows 500 none true =
      some [⟨0, 0, 30⟩, ⟨1, ((500 / 2 : Nat) : Int), 30⟩] :=
  (broad_sampling_windows 500 (by decide)).1 (by decide)

/-- C9 counterexample: a request carrying `start_time = "0:10"` and
`end_time = "0:50"` does not get the single window `[10, 50)` of length 40
the claim demands — the server has no `end_time` parameter and produces the
fixed 30-second window at 10. -/
theorem explicit_range_counterexample :
    request_windows 200
        { url := "u", start_time := some "0:10", end_time := some "0:50",
          sample_multiple := false } ≠ some [⟨0, 10, 40⟩] ∧
    request_windows 200
        { url := "u", start_time := some "0:10", end_time := some "0:50",
          sample_multiple := false } = some [⟨0, 10, 30⟩] := by decide

/-- C9 as amended: `end_time` is ignored by the endpoint; whenever a
non-empty `start_time` is supplied and the broad-sampling branch does not
apply, the selector produces exactly one window starting at the parsed
start, of fixed length 30 (not `end - start`). -/
theorem explicit_start_window (d : Nat) (req : UrlRequest) (t : String) (s : Int)
    (ht : req.start_time = some t) (hne : t ≠ "")
    (hnb : ¬(req.sample_multiple = true ∧ 180 < d))
    (hp : parse_start_time t = some s) :
    request_windows d req = some [⟨0, s, 30⟩] := by
  unfold request_windows select_windows
  rw [if_neg hnb, ht]
  simp [hne, hp]

/-- Witness for C9: the amended behavior at the counterexample's request. -/
theorem explicit_start_window_witness :
    request_windows 200
        { url := "u", start_time := some "0:10", end_time := some "0:50",
          sample_multiple := false } = some [⟨0, 10, 30⟩] :=
  explicit_start_window 200
    { url := "u", start_time := some "0:10", end_time := some "0:50",
      sample_multiple := false } "0:10" 10 rfl (by decide) (by decide) (by decide)

/-- Helper: a batch in which every download fails extracts no segment. -/
theorem extract_segments_all_none (title : String) :
    ∀ (i : Nat) (l : List (Nat × Option (List Nat))),
      (∀ p ∈ l, p.2 = none) → extract_segments title i l = [] := by
  intro i l
  induction l generalizing i with
  | nil => intro _; rfl
  | cons p rest ih =>
    intro h
    obtain ⟨start, d⟩ := p
    have hd : d = none := h (start, d) (by simp)
    subst hd
    simpa [extract_segments] using ih (i + 1) (fun q hq => h q (by simp [hq]))

/-- C7: when every selected window fails extraction, the whole request
surfaces the extraction error (an HTTPException, never an empty success or
a NotFound verdict) and the recognition collaborator is invoked zero
times. -/
theorem all_windows_fail_extraction (title : String) (duration : Nat)
    (fetch : List (Option (List Nat))) (recog : List Nat → String → RecogResult)
    (h : ∀ r ∈ fetch, r = none) :
    recognize_from_url_multi title duration fetch recog =
      (.error "Failed to extract audio from URL: No audio file found after download", 0) := by
  have hz : ∀ p ∈ (sample_points duration).zip fetch, (p : Nat × Option (List Nat)).2 = none := by
    intro p hp
    exact h p.2 (List.of_mem_zip hp).2
  have he : extract_segments title 0 ((sample_points duration).zip fetch) = [] :=
    extract_segments_all_none title 0 _ hz
  unfold recognize_from_url_multi extract_audio_multi
  simp only [he]
  rfl

/-- Witness for C7: two failed downloads of a 500-second media item. -/
theorem all_windows_fail_extraction_witness :
    recognize_from_url_multi "t" 500 [none, none] (fun _ _ => { status := "success" }) =
      (.error "Failed to extract audio from URL: No audio file found after download", 0) :=
  all_windows_fail_extraction "t" 500 [none, none] (fun _ _ => { status := "success" })
    (by decide)

/-! ## Lemmas about the aggregation loop -/

theorem enumerate_mem_snd {α : Type} :
    ∀ (n : Nat) (l : List α) (p : Nat × α), p ∈ enumerate n l → p.2 ∈ l := by
  intro n l
  induction l generalizing n with
  | nil => intro p hp; simp [enumerate] at hp
  | cons x rest ih =>
    intro p hp
    simp only [enumerate, List.mem_cons] at hp
    rcases hp with rfl | hp
    · simp
    · exact List.mem_cons_of_mem x (ih (n + 1) p hp)

/-- A non-success outcome leaves the loop state untouched (lines 257,
269-271: only success enters the `if`, every failure just continues). -/
theorem agg_step_not_success (recog : List Nat → String → RecogResult)
    (p : Nat × AudioSegment) (st : AggState)
    (h : (seg_outcome recog p).status ≠ "success") :
    agg_step recog p st = st := by
  have h' : ¬((recog p.2.data p.2.filename).status = "success") := by
    simpa [seg_outcome] using h
  simp [agg_step, h']

theorem agg_loop_no_success (recog : List Nat → String → RecogResult) :
    ∀ (l : List (Nat × AudioSegment)) (st : AggState),
      (∀ p ∈ l, (seg_outcome recog p).status ≠ "success") →
      agg_loop recog l st = st := by
  intro l
  induction l with
  | nil => intro st _; rfl
  | cons p rest ih =>
    intro st h
    rw [agg_loop, agg_step_not_success recog p st (h p (by simp))]
    exact ih st (fun q hq => h q (by simp [hq]))

/-- C8 counterexample: on an all-NotFound batch of 2 segments the verdict is
NotFound with a message naming the count, but it carries no
`segments_attempted`/`segments_succeeded` counters at all (in particular
`segments_attempted` is not 2). -/
theorem not_found_counters_counterexample :
    ((recognize_multiple_segments [⟨[1], 0, "a"⟩, ⟨[2], 5, "b"⟩]
        (fun _ _ => { status := "not_found" }) ⟨"t", 500, []⟩).result).status = "not_found" ∧
    ((recognize_multiple_segments [⟨[1], 0, "a"⟩, ⟨[2], 5, "b"⟩]
        (fun _ _ => { status := "not_found" }) ⟨"t", 500, []⟩).result).all_segments_tried ≠ some 2 ∧
    ((recognize_multiple_segments [⟨[1], 0, "a"⟩, ⟨[2], 5, "b"⟩]
        (fun _ _ => { status := "not_found" }) ⟨"t", 500, []⟩).result).all_segments_tried = none ∧
    ((recognize_multiple_segments [⟨[1], 0, "a"⟩, ⟨[2], 5, "b"⟩]
        (fun _ _ => { status := "not_found" }) ⟨"t", 500, []⟩).result).successful_segments = none ∧
    ((recognize_multiple_segments [⟨[1], 0, "a"⟩, ⟨[2], 5, "b"⟩]
        (fun _ _ => { status := "not_found" }) ⟨"t", 500, []⟩).result).message =
      some "No matches found in 2 segments analyzed" := by decide

/-- C8 as amended: with no Success outcome the aggregator returns the
NotFound dictionary whose message names the number of segments analyzed;
the attempted/succeeded counters are left unset on this path (they are only
attached to a winning Success result). -/
theorem no_success_not_found (segs : List AudioSegment)
    (recog : List Nat → String → RecogResult) (meta : Metadata)
    (h : ∀ s ∈ segs, (recog s.data s.filename).status ≠ "success") :
    recognize_multiple_segments segs recog meta =
      ⟨{ status := "not_found"
         message := some ("No matches found in " ++ toString segs.length
           ++ " segments analyzed") }, meta⟩ := by
  have hl : ∀ p ∈ enumerate 0 segs, (seg_outcome recog p).status ≠ "success" := by
    intro p hp
    exact h p.2 (enumerate_mem_snd 0 segs p hp)
  unfold recognize_multiple_segments
  rw [agg_loop_no_success recog _ agg_init hl]
  rfl

/-- Witness for C8: one Error-outcome segment yields the NotFound verdict
naming 1 segment analyzed. -/
theorem no_success_not_found_witness :
    recognize_multiple_segments [⟨[7], 0, "s"⟩] (fun _ _ => { status := "error" })
        ⟨"m", 200, []⟩ =
      ⟨{ status := "not_found"
         message := some "No matches found in 1 segments analyzed" }, ⟨"m", 200, []⟩⟩ :=
  (no_success_not_found [⟨[7], 0, "s"⟩] (fun _ _ => { status := "error" })
    ⟨"m", 200, []⟩ (by decide)).trans (by decide)

/-- Splitting the extraction loop around any point of the batch. -/
theorem extract_segments_append (title : String) :
    ∀ (l₁ l₂ : List (Nat × Option (List Nat))) (i : Nat),
      extract_segments title i (l₁ ++ l₂) =
        extract_segments title i l₁ ++ extract_segments title (i + l₁.length) l₂ := by
  intro l₁ l₂
  induction l₁ with
  | nil => intro i; simp [extract_segments]
  | cons p rest ih =>
    intro i
    obtain ⟨start, d⟩ := p
    cases d with
    | some bytes =>
      simp only [List.cons_append, extract_segments, List.append_eq, ih (i + 1),
        List.length_cons]
      rw [show i + (rest.length + 1) = i + 1 + rest.length by omega]
    | none =>
      simp only [List.cons_append, extract_segments, List.append_eq, ih (i + 1),
        List.length_cons]
      rw [show i + (rest.length + 1) = i + 1 + rest.length by omega]

/-- Splitting the aggregation loop around any point of the batch. -/
theorem agg_loop_append (recog : List Nat → String → RecogResult) :
    ∀ (a b : List (Nat × AudioSegment)) (st : AggState),
      agg_loop recog (a ++ b) st = agg_loop recog b (agg_loop recog a st) := by
  intro a b
  induction a with
  | nil => intro st; rfl
  | cons p rest ih =>
    intro st
    simp only [List.cons_append, agg_loop]
    exact ih (agg_step recog p st)

/-- C6: one failing element does not abort its batch.  First conjunct (the
Extractor, lines 148-184): a window whose download fails contributes
nothing, and the windows before and after it are extracted exactly as they
would be, each under its own `enumerate` index.  Second conjunct (the
Dispatcher/Aggregator, lines 253-271): a segment with an Error outcome
leaves the loop state exactly as if the element were absent, so the
verdict is derived from the surviving segments. -/
theorem single_failure_isolation :
    (∀ (title : String) (i p : Nat) (l₁ l₂ : List (Nat × Option (List Nat))),
      extract_segments title i (l₁ ++ (p, none) :: l₂) =
        extract_segments title i l₁ ++
          extract_segments title (i + l₁.length + 1) l₂) ∧
    (∀ (recog : List Nat → String → RecogResult) (e₁ e₂ : List (Nat × AudioSegment))
        (j : Nat) (s : AudioSegment) (st : AggState),
      (recog s.data s.filename).status = "error" →
      agg_loop recog (e₁ ++ (j, s) :: e₂) st = agg_loop recog (e₁ ++ e₂) st) := by
  constructor
  · intro title i p l₁ l₂
    rw [extract_segments_append title l₁ ((p, none) :: l₂) i]
    simp only [extract_segments]
  · intro recog e₁ e₂ j s st herr
    rw [agg_loop_append recog e₁ ((j, s) :: e₂) st,
      agg_loop_append recog e₁ e₂ st]
    have hs : agg_step recog (j, s) (agg_loop recog e₁ st) = agg_loop recog e₁ st :=
      agg_step_not_success recog (j, s) _ (by simp [seg_outcome, herr])
    simp only [agg_loop, hs]

/-- Witness for C6: a concrete three-window batch with the middle download
failed, and a concrete one-element Error batch. -/
theorem single_failure_isolation_witness :
    extract_segments "t" 0 ([(0, some [1])] ++ (250, none) :: [(375, some [2])]) =
      extract_segments "t" 0 [(0, some [1])] ++
        extract_segments "t" (0 + [(0, some [1])].length + 1) [(375, some [2])] ∧
    agg_loop (fun _ _ => { status := "error" })
        ([] ++ (0, (⟨[1], 0, "a"⟩ : AudioSegment)) :: []) agg_init =
      agg_loop (fun _ _ => { status := "error" }) ([] ++ []) agg_init :=
  ⟨single_failure_isolation.1 "t" 0 250 [(0, some [1])] [(375, some [2])],
   single_failure_isolation.2 (fun _ _ => { status := "error" }) [] [] 0
     ⟨[1], 0, "a"⟩ agg_init (by decide)⟩

/-! ## Characterization of the best-match selection -/

theorem agg_loop_cons (recog : List Nat → String → RecogResult)
    (p : Nat × AudioSegment) (rest : List (Nat × AudioSegment)) (st : AggState) :
    agg_loop recog (p :: rest) st = agg_loop recog rest (agg_step recog p st) := rfl

/-- A success strictly above the running best becomes the new best. -/
theorem agg_step_success_gt (recog : List Nat → String → RecogResult)
    (p : Nat × AudioSegment) (st : AggState)
    (hs : (seg_outcome recog p).status = "success")
    (hc : st.best_confidence < eff_conf (seg_outcome recog p)) :
    agg_step recog p st =
      ⟨some (annotate p.1 p.2 (seg_outcome recog p)),
        eff_conf (seg_outcome recog p),
        st.all_results ++ [annotate p.1 p.2 (seg_outcome recog p)]⟩ := by
  have hs' : (recog p.2.data p.2.filename).status = "success" := by
    simpa [seg_outcome] using hs
  have hc' : st.best_confidence < eff_conf (recog p.2.data p.2.filename) := by
    simpa [seg_outcome] using hc
  simp [agg_step, hs', hc', seg_outcome]

/-- A success not above the running best is collected but not selected. -/
theorem agg_step_success_le (recog : List Nat → String → RecogResult)
    (p : Nat × AudioSegment) (st : AggState)
    (hs : (seg_outcome recog p).status = "success")
    (hc : ¬(st.best_confidence < eff_conf (seg_outcome recog p))) :
    agg_step recog p st =
      ⟨st.best, st.best_confidence,
        st.all_results ++ [annotate p.1 p.2 (seg_outcome recog p)]⟩ := by
  have hs' : (recog p.2.data p.2.filename).status = "success" := by
    simpa [seg_outcome] using hs
  have hc' : ¬(st.best_confidence < eff_conf (recog p.2.data p.2.filename)) := by
    simpa [seg_outcome] using hc
  simp [agg_step, hs', hc', seg_outcome]

/-- When no remaining success beats the running best, the selection is
stable across the rest of the loop. -/
theorem agg_loop_stable (recog : List Nat → String → RecogResult) :
    ∀ (l : List (Nat × AudioSegment)) (st : AggState),
      (∀ p ∈ l, (seg_outcome recog p).status = "success" →
        eff_conf (seg_outcome recog p) ≤ st.best_confidence) →
      (agg_loop recog l st).best = st.best ∧
        (agg_loop recog l st).best_confidence = st.best_confidence := by
  intro l
  induction l with
  | nil => exact fun st _ => ⟨rfl, rfl⟩
  | cons p rest ih =>
    intro st h
    by_cases hs : (seg_outcome recog p).status = "success"
    · have hle := h p (by simp) hs
      rw [agg_loop_cons, agg_step_success_le recog p st hs (not_lt.mpr hle)]
      exact ih _ (fun q hq hqs => h q (by simp [hq]) hqs)
    · rw [agg_loop_cons, agg_step_not_success recog p st hs]
      exact ih st (fun q hq hqs => h q (by simp [hq]) hqs)

/-- The collected `all_results` are exactly the annotated successes, in
order. -/
theorem agg_loop_results (recog : List Nat → String → RecogResult) :
    ∀ (l : List (Nat × AudioSegment)) (st : AggState),
      (agg_loop recog l st).all_results = st.all_results ++
        l.filterMap (fun p => if (seg_outcome recog p).status = "success"
          then some (annotate p.1 p.2 (seg_outcome recog p)) else none) := by
  intro l
  induction l with
  | nil => intro st; simp [agg_loop]
  | cons p rest ih =>
    intro st
    by_cases hs : (seg_outcome recog p).status = "success"
    · by_cases hc : st.best_confidence < eff_conf (seg_outcome recog p)
      · rw [agg_loop_cons, agg_step_success_gt recog p st hs hc, ih]
        simp [List.filterMap_cons, hs]
      · rw [agg_loop_cons, agg_step_success_le recog p st hs hc, ih]
        simp [List.filterMap_cons, hs]
    · rw [agg_loop_cons, agg_step_not_success recog p st hs, ih]
      simp [List.filterMap_cons, hs]

theorem length_filterMap_success (recog : List Nat → String → RecogResult) :
    ∀ (l : List (Nat × AudioSegment)),
      (l.filterMap (fun p => if (seg_outcome recog p).status = "success"
        then some (annotate p.1 p.2 (seg_outcome recog p)) else none)).length =
      l.countP (fun p => (seg_outcome recog p).status == "success") := by
  intro l
  induction l with
  | nil => rfl
  | cons p rest ih =>
    by_cases hs : (seg_outcome recog p).status = "success"
    · simp [List.filterMap_cons, List.countP_cons, hs, ih]
    · simp [List.filterMap_cons, List.countP_cons, hs, ih]

theorem countP_enumerate (recog : List Nat → String → RecogResult) :
    ∀ (n : Nat) (segs : List AudioSegment),
      (enumerate n segs).countP
          (fun p => (seg_outcome recog p).status == "success") =
        success_count recog segs := by
  intro n segs
  induction segs generalizing n with
  | nil => rfl
  | cons s rest ih =>
    simp only [enumerate, List.countP_cons, success_count, seg_outcome] at *
    rw [ih (n + 1)]

theorem enumerate_mem_fst_ge {α : Type} :
    ∀ (n : Nat) (l : List α) (p : Nat × α), p ∈ enumerate n l → n ≤ p.1 := by
  intro n l
  induction l generalizing n with
  | nil => intro p hp; simp [enumerate] at hp
  | cons x rest ih =>
    intro p hp
    simp only [enumerate, List.mem_cons] at hp
    rcases hp with rfl | hp
    · exact le_refl n
    · exact le_trans (Nat.le_succ n) (ih (n + 1) p hp)

theorem enumerate_append_inv {α : Type} :
    ∀ (l₁ : List (Nat × α)) (l : List α) (n : Nat) (l₂ : List (Nat × α)),
      enumerate n l = l₁ ++ l₂ →
      l₂ = enumerate (n + l₁.length) (l.drop l₁.length) := by
  intro l₁
  induction l₁ with
  | nil => intro l n l₂ h; simpa using h.symm
  | cons y l₁ ih =>
    intro l n l₂ h
    cases l with
    | nil => simp [enumerate] at h
    | cons x rest =>
      simp only [enumerate, List.cons_append, List.cons.injEq] at h
      obtain ⟨-, htail⟩ := h
      have := ih rest (n + 1) l₂ htail
      rw [this]
      simp only [List.length_cons, List.drop_succ_cons]
      rw [show n + (l₁.length + 1) = n + 1 + l₁.length by omega]

/-- The loop selects the first success attaining the maximal effective
confidence, provided some success strictly beats the incoming best. -/
theorem agg_loop_best (recog : List Nat → String → RecogResult) :
    ∀ (l : List (Nat × AudioSegment)) (st : AggState),
      (∃ p ∈ l, (seg_outcome recog p).status = "success" ∧
        st.best_confidence < eff_conf (seg_outcome recog p)) →
      ∃ l₁ p l₂, l = l₁ ++ p :: l₂ ∧
        (seg_outcome recog p).status = "success" ∧
        st.best_confidence < eff_conf (seg_outcome recog p) ∧
        (agg_loop recog l st).best = some (annotate p.1 p.2 (seg_outcome recog p)) ∧
        (agg_loop recog l st).best_confidence = eff_conf (seg_outcome recog p) ∧
        (∀ q ∈ l₁, (seg_outcome recog q).status = "success" →
          eff_conf (seg_outcome recog q) < eff_conf (seg_outcome recog p)) ∧
        (∀ q ∈ l, (seg_outcome recog q).status = "success" →
          eff_conf (seg_outcome recog q) ≤ eff_conf (seg_outcome recog p)) := by
  intro l
  induction l with
  | nil => intro st h; simp at h
  | cons x rest ih =>
    intro st hex
    by_cases hx : (seg_outcome recog x).status = "success" ∧
        st.best_confidence < eff_conf (seg_outcome recog x)
    · obtain ⟨hxs, hxc⟩ := hx
      have hstep := agg_step_success_gt recog x st hxs hxc
      by_cases hrest : ∃ q ∈ rest, (seg_outcome recog q).status = "success" ∧
          eff_conf (seg_outcome recog x) < eff_conf (seg_outcome recog q)
      · obtain ⟨l₁, p, l₂, heq, hps, hplt, hbest, hbc, hfirst, hmax⟩ :=
          ih (agg_step recog x st) (by rw [hstep]; exact hrest)
        rw [hstep] at hplt
        refine ⟨x :: l₁, p, l₂, by rw [heq, List.cons_append],
          hps, lt_trans hxc hplt, ?_, ?_, ?_, ?_⟩
        · rw [agg_loop_cons]; exact hbest
        · rw [agg_loop_cons]; exact hbc
        · intro q hq hqs
          rcases List.mem_cons.mp hq with rfl | hq'
          · exact hplt
          · exact hfirst q hq' hqs
        · intro q hq hqs
          rcases List.mem_cons.mp hq with rfl | hq'
          · exact le_of_lt hplt
          · exact hmax q (heq ▸ hq') hqs
      · push_neg at hrest
        have hstable := agg_loop_stable recog rest (agg_step recog x st)
          (by rw [hstep]; exact fun q hq hqs => hrest q hq hqs)
        refine ⟨[], x, rest, rfl, hxs, hxc, ?_, ?_, by simp, ?_⟩
        · rw [agg_loop_cons, hstable.1, hstep]
        · rw [agg_loop_cons, hstable.2, hstep]
        · intro q hq hqs
          rcases List.mem_cons.mp hq with rfl | hq'
          · exact le_refl _
          · exact hrest q hq' hqs
    · have hbc' : (agg_step recog x st).best_confidence = st.best_confidence := by
        by_cases hxs : (seg_outcome recog x).status = "success"
        · have hxc : ¬(st.best_confidence < eff_conf (seg_outcome recog x)) :=
            fun hc => hx ⟨hxs, hc⟩
          rw [agg_step_success_le recog x st hxs hxc]
        · rw [agg_step_not_success recog x st hxs]
      have hex' : ∃ p ∈ rest, (seg_outcome recog p).status = "success" ∧
          (agg_step recog x st).best_confidence < eff_conf (seg_outcome recog p) := by
        obtain ⟨p, hp, hps, hpc⟩ := hex
        rcases List.mem_cons.mp hp with rfl | hp'
        · exact absurd ⟨hps, hpc⟩ hx
        · exact ⟨p, hp', hps, by rw [hbc']; exact hpc⟩
      obtain ⟨l₁, p, l₂, heq, hps, hplt, hbest, hbc, hfirst, hmax⟩ :=
        ih (agg_step recog x st) hex'
      rw [hbc'] at hplt
      refine ⟨x :: l₁, p, l₂, by rw [heq, List.cons_append],
        hps, hplt, ?_, ?_, ?_, ?_⟩
      · rw [agg_loop_cons]; exact hbest
      · rw [agg_loop_cons]; exact hbc
      · intro q hq hqs
        rcases List.mem_cons.mp hq with rfl | hq'
        · have hle : eff_conf (seg_outcome recog q) ≤ st.best_confidence :=
            not_lt.mp (fun hc => hx ⟨hqs, hc⟩)
          exact lt_of_le_of_lt hle hplt
        · exact hfirst q hq' hqs
      · intro q hq hqs
        rcases List.mem_cons.mp hq with rfl | hq'
        · have hle : eff_conf (seg_outcome recog q) ≤ st.best_confidence :=
            not_lt.mp (fun hc => hx ⟨hqs, hc⟩)
          exact le_trans hle (le_of_lt hplt)
        · exact hmax q (heq ▸ hq') hqs

/-- C1 counterexample: a batch containing a Success outcome of confidence 0
is reduced to NotFound — the strict `confidence > best_confidence`
comparison against the initial best of 0 never selects it, so the
aggregator does not return the maximum-confidence Success outcome. -/
theorem zero_confidence_success_counterexample :
    ((fun (_ : List Nat) (_ : String) =>
        ({ status := "success", confidence := some 0 } : RecogResult)) [1] "a").status
      = "success" ∧
    ((recognize_multiple_segments [⟨[1], 0, "a"⟩]
        (fun _ _ => { status := "success", confidence := some 0 })
        ⟨"t", 500, []⟩).result).status = "not_found" := by decide

/-- C1 as amended: for every outcome set containing at least one Success of
positive effective confidence (the `confidence` field, defaulting to 0.5
when absent), the aggregator — a pure function of the index-ordered outcome
list, independent of completion order — returns the Success outcome with
the maximum effective confidence, annotated and with the tried/succeeded
counters; on an exact confidence tie the one with the smallest window index
wins. -/
theorem recognize_best_match (segs : List AudioSegment)
    (recog : List Nat → String → RecogResult) (meta : Metadata)
    (h : ∃ p ∈ enumerate 0 segs, (seg_outcome recog p).status = "success" ∧
      0 < eff_conf (seg_outcome recog p)) :
    ∃ p ∈ enumerate 0 segs, (seg_outcome recog p).status = "success" ∧
      recognize_multiple_segments segs recog meta =
        ⟨{ annotate p.1 p.2 (seg_outcome recog p) with
            all_segments_tried := some segs.length
            successful_segments := some (success_count recog segs) }, meta⟩ ∧
      (∀ q ∈ enumerate 0 segs, (seg_outcome recog q).status = "success" →
        eff_conf (seg_outcome recog q) ≤ eff_conf (seg_outcome recog p)) ∧
      (∀ q ∈ enumerate 0 segs, (seg_outcome recog q).status = "success" →
        eff_conf (seg_outcome recog q) = eff_conf (seg_outcome recog p) →
        p.1 ≤ q.1) := by
  obtain ⟨l₁, p, l₂, heq, hps, hplt, hbest, hbc, hfirst, hmax⟩ :=
    agg_loop_best recog (enumerate 0 segs) agg_init h
  have hlen : (agg_loop recog (enumerate 0 segs) agg_init).all_results.length =
      success_count recog segs := by
    rw [agg_loop_results recog (enumerate 0 segs) agg_init]
    simp only [agg_init, List.nil_append]
    rw [length_filterMap_success recog (enumerate 0 segs),
      countP_enumerate recog 0 segs]
  refine ⟨p, by rw [heq]; exact List.mem_append_right _ (List.mem_cons_self p l₂),
    hps, ?_, hmax, ?_⟩
  · unfold recognize_multiple_segments
    simp only [hbest, hlen]
  · intro q hq hqs heffeq
    have hsplit := enumerate_append_inv l₁ segs 0 (p :: l₂) heq
    cases hd : segs.drop l₁.length with
    | nil => rw [hd] at hsplit; simp [enumerate] at hsplit
    | cons s rest =>
      rw [hd] at hsplit
      simp only [enumerate, List.cons.injEq] at hsplit
      obtain ⟨hpval, hl₂⟩ := hsplit
      have hp1 : p.1 = l₁.length := by rw [hpval]; omega
      rw [heq] at hq
      rcases List.mem_append.mp hq with hq1 | hq2
      · exact absurd heffeq (ne_of_lt (hfirst q hq1 hqs))
      · rcases List.mem_cons.mp hq2 with rfl | hq3
        · exact le_refl _
        · have hge : 0 + l₁.length + 1 ≤ q.1 := by
            rw [hl₂] at hq3
            exact enumerate_mem_fst_ge _ rest q hq3
          omega

/-- Witness for C1: the spec's tie example — two Success outcomes at
confidence 0.85 — where the aggregator must pick the smaller index. -/
theorem recognize_best_match_witness :
    ∃ p ∈ enumerate 0 [(⟨[1], 0, "a"⟩ : AudioSegment), ⟨[2], 250, "b"⟩],
      (seg_outcome (fun _ _ => { status := "success", confidence := some (85 / 100 : ℚ) }) p).status = "success" ∧
      recognize_multiple_segments [⟨[1], 0, "a"⟩, ⟨[2], 250, "b"⟩]
          (fun _ _ => { status := "success", confidence := some (85 / 100 : ℚ) })
          ⟨"t", 500, []⟩ =
        ⟨{ annotate p.1 p.2 (seg_outcome
              (fun _ _ => { status := "success", confidence := some (85 / 100 : ℚ) }) p) with
            all_segments_tried := some (List.length [(⟨[1], 0, "a"⟩ : AudioSegment), ⟨[2], 250, "b"⟩])
            successful_segments := some (success_count
              (fun _ _ => { status := "success", confidence := some (85 / 100 : ℚ) })
              [⟨[1], 0, "a"⟩, ⟨[2], 250, "b"⟩]) }, ⟨"t", 500, []⟩⟩ ∧
      (∀ q ∈ enumerate 0 [(⟨[1], 0, "a"⟩ : AudioSegment), ⟨[2], 250, "b"⟩],
        (seg_outcome (fun _ _ => { status := "success", confidence := some (85 / 100 : ℚ) }) q).status = "success" →
        eff_conf (seg_outcome (fun _ _ => { status := "success", confidence := some (85 / 100 : ℚ) }) q) ≤
          eff_conf (seg_outcome (fun _ _ => { status := "success", confidence := some (85 / 100 : ℚ) }) p)) ∧
      (∀ q ∈ enumerate 0 [(⟨[1], 0, "a"⟩ : AudioSegment), ⟨[2], 250, "b"⟩],
        (seg_outcome (fun _ _ => { status := "success", confidence := some (85 / 100 : ℚ) }) q).status = "success" →
        eff_conf (seg_outcome (fun _ _ => { status := "success", confidence := some (85 / 100 : ℚ) }) q) =
          eff_conf (seg_outcome (fun _ _ => { status := "success", confidence := some (85 / 100 : ℚ) }) p) →
        p.1 ≤ q.1) :=
  recognize_best_match [⟨[1], 0, "a"⟩, ⟨[2], 250, "b"⟩]
    (fun _ _ => { status := "success", confidence := some (85 / 100 : ℚ) })
    ⟨"t", 500, []⟩
    ⟨(0, ⟨[1], 0, "a"⟩), by decide, by decide, by norm_num [seg_outcome, eff_conf]⟩

end TuneSpotter
